import Mathlib

/-!
Shallow embedding of the milstian internet framework core
(worker pool, connection reader/dispatcher, HTTP request parser),
translated from the Rust sources:
  src/lib.rs           — ThreadPool / Worker / Message
  src/request/mod.rs   — HttpRequestMessage parsing state machine
  src/response/tcp/mod.rs — Dispatcher::http connection read loop

Strings are modelled as lists of characters; `&[u8]` input as lists of
natural numbers (bytes); `HashMap<String, String>` as association lists
with overwrite-on-insert semantics (deterministic representation of the
map contents; `HashMap::insert` replaces the value of an existing key).
-/

namespace Milstian

/-- Rust `str` values, modelled as lists of characters. -/
abbrev Str := List Char

/-- Convert a Lean string literal to the character-list model. -/
def chars (s : String) : Str := s.toList

/-- Convert an ASCII Lean string literal to a byte list (`&[u8]` model). -/
def octets (s : String) : List Nat := s.toList.map Char.toNat

/-- Rust `char::is_whitespace`, restricted to the ASCII range (the parser
only ever runs on ASCII input): space, tab, line feed, vertical tab,
form feed, carriage return. -/
def isWhite (c : Char) : Bool :=
  c = ' ' || c = '\t' || c = '\n' || c = '\x0b' || c = '\x0c' || c = '\r'

/-- Rust `str::trim`: remove leading and trailing whitespace. -/
def trim (s : Str) : Str :=
  ((s.dropWhile isWhite).reverse.dropWhile isWhite).reverse

/-- Rust `str::split(sep)` for a one-character separator: splits at every
occurrence, keeping empty pieces, always producing at least one piece
(`"".split(sep)` yields one empty piece). -/
def splitOnChar (sep : Char) : Str → List Str
  | [] => [[]]
  | c :: rest =>
    match splitOnChar sep rest with
    | [] => if c = sep then [[], []] else [[c]]
    | h :: t => if c = sep then [] :: h :: t else (c :: h) :: t

/-- Rust `str::splitn(2, sep)` for a one-character separator: split once at
the first occurrence; a string without the separator yields one piece. -/
def splitOnFirstChar (sep : Char) : Str → List Str
  | [] => [[]]
  | c :: rest =>
    if c = sep then [[], rest]
    else
      match splitOnFirstChar sep rest with
      | [] => [[c]]
      | h :: t => (c :: h) :: t

/-- Rust `str::lines` helper: strip one trailing carriage return. -/
def stripTrailingCr (l : Str) : Str :=
  if l.getLast? = some '\r' then l.dropLast else l

/-- Rust `str::lines`: split on line feeds, dropping the piece after a
final line feed, and stripping one trailing carriage return per line;
the empty string yields no lines. -/
def linesOf (s : Str) : List Str :=
  if s = [] then []
  else
    let ps := splitOnChar '\n' s
    let ps := if ps.getLast? = some [] then ps.dropLast else ps
    ps.map stripTrailingCr

/-- HTTP request methods (src/request/mod.rs `HttpRequestMethod`). -/
inductive HttpRequestMethod where
  | connect
  | delete
  | get
  | head
  | invalid
  | options
  | patch
  | post
  | put
  | trace
deriving DecidableEq, Repr

/-- HTTP protocol versions (src/request/mod.rs `HttpRequestProtocol`). -/
inductive HttpRequestProtocol where
  | invalid
  | oneDotZero
  | oneDotOne
  | twoDotZero
  | zeroDotNine
deriving DecidableEq, Repr

/-- Parser states (src/request/mod.rs `HttpRequestSection`). -/
inductive HttpRequestSection where
  | requestLine
  | headerFields
  | messageBody
deriving DecidableEq, Repr

/-- Per-method body policy (src/request/mod.rs `HttpSettingValence`). -/
inductive HttpSettingValence where
  | optional
  | no
  | yes
deriving DecidableEq, Repr

/-- Parsed request line (src/request/mod.rs `HttpRequestLine`). -/
structure HttpRequestLine where
  method : HttpRequestMethod
  protocol : HttpRequestProtocol
  request_uri : Str
  request_uri_base : Str
  query_arguments : List (Str × Str)
  query_string : Str
deriving DecidableEq, Repr

/-- Parsed request message (src/request/mod.rs `HttpRequestMessage`). -/
structure HttpRequestMessage where
  body : List (Str × Str)
  headers : List (Str × Str)
  request_line : HttpRequestLine
deriving DecidableEq, Repr

/-- Static body-valence table
(src/request/mod.rs `HttpRequestMessage::method_has_request_body`). -/
def method_has_request_body : HttpRequestMethod → HttpSettingValence
  | .connect => .yes
  | .delete => .no
  | .get => .optional
  | .head => .no
  | .options => .optional
  | .patch => .yes
  | .post => .yes
  | .put => .yes
  | .trace => .yes
  | .invalid => .optional

/-- `HashMap::insert` semantics on the association-list model: overwrite
the value of an existing key in place, otherwise append the new pair. -/
def insertArg (k v : Str) (m : List (Str × Str)) : List (Str × Str) :=
  if m.any (fun p => p.1 = k) then
    m.map (fun p => if p.1 = k then (k, v) else p)
  else m ++ [(k, v)]

/-- One iteration of the ampersand/equals pair loop shared by
`get_message_body` and the query-argument parsing in `get_request_line`:
split the item on equals signs; exactly two pieces insert key/value,
otherwise the first piece is inserted with the literal value one. -/
def parsePairItem (m : List (Str × Str)) (item : Str) : List (Str × Str) :=
  match splitOnChar '=' item with
  | [k, v] => insertArg k v m
  | k :: _ => insertArg k ['1'] m
  | [] => m

/-- The ampersand-delimited pair loop: split the string on ampersands and
fold every item through `parsePairItem` into an empty map. This is the
body of the loops at src/request/mod.rs lines 142-150 and 197-206. -/
def parsePairs (s : Str) : List (Str × Str) :=
  (splitOnChar '&' s).foldl parsePairItem []

/-- Body parsing (src/request/mod.rs `HttpRequestMessage::get_message_body`):
run the pair loop only on a non-empty string, and return the map only
when it is non-empty. -/
def get_message_body (body : Str) : Option (List (Str × Str)) :=
  let args := if body.isEmpty then [] else parsePairs body
  if args.length > 0 then some args else none

/-- Header-field parsing (src/request/mod.rs
`HttpRequestMessage::get_header_field`): trim the line; a non-empty line
split once on the first colon into exactly two pieces yields the trimmed
key and value; otherwise no entry. -/
def get_header_field (line : Str) : Option (Str × Str) :=
  let l := trim line
  if l.isEmpty then none
  else
    match splitOnFirstChar ':' l with
    | [k, v] => some (trim k, trim v)
    | _ => none

/-- Method lookup table from src/request/mod.rs lines 175-186. -/
def lookupMethod (s : Str) : HttpRequestMethod :=
  if s = chars ("CONNECT") then .connect
  else if s = chars ("DELETE") then .delete
  else if s = chars ("GET") then .get
  else if s = chars ("HEAD") then .head
  else if s = chars ("OPTIONS") then .options
  else if s = chars ("PATCH") then .patch
  else if s = chars ("PUT") then .put
  else if s = chars ("POST") then .post
  else if s = chars ("TRACE") then .trace
  else .invalid

/-- Protocol lookup table from src/request/mod.rs lines 209-215. -/
def lookupProtocol (s : Str) : HttpRequestProtocol :=
  if s = chars ("HTTP/0.9") then .zeroDotNine
  else if s = chars ("HTTP/1.0") then .oneDotZero
  else if s = chars ("HTTP/1.1") then .oneDotOne
  else if s = chars ("HTTP/2.0") then .twoDotZero
  else .invalid

/-- URI decomposition block, duplicated verbatim in both branches of
`get_request_line` (src/request/mod.rs lines 189-207 and 234-252):
base starts as the whole URI, query string empty, arguments empty;
when splitting once on the first question mark gives two pieces, the
base and query string are those pieces and the arguments are the
ampersand/equals pair loop over the query string. Returns
(request_uri_base, query_string, query_arguments). -/
def parseUri (request_uri : Str) : Str × Str × List (Str × Str) :=
  match splitOnFirstChar '?' request_uri with
  | [base, qs] => (base, qs, parsePairs qs)
  | _ => (request_uri, [], [])

/-- Request-line parsing (src/request/mod.rs
`HttpRequestMessage::get_request_line`): trim and split on spaces;
three tokens look up method and protocol and succeed only when both are
recognized; one token is the pre-1.0 fallback (GET, HTTP/0.9); any
other token count fails. -/
def get_request_line (line : Str) : Option HttpRequestLine :=
  match splitOnChar ' ' (trim line) with
  | [p0, p1, p2] =>
    let method := lookupMethod p0
    let uri := parseUri p1
    let protocol := lookupProtocol p2
    if method ≠ HttpRequestMethod.invalid ∧ protocol ≠ HttpRequestProtocol.invalid then
      some { method := method, protocol := protocol, request_uri := p1,
             request_uri_base := uri.1, query_arguments := uri.2.2,
             query_string := uri.2.1 }
    else none
  | [p0] =>
    let uri := parseUri p0
    some { method := HttpRequestMethod.get, protocol := HttpRequestProtocol.zeroDotNine,
           request_uri := p0, request_uri_base := uri.1,
           query_arguments := uri.2.2, query_string := uri.2.1 }
  | _ => none

/-- Mutable state of the `from_tcp_stream` line loop: the headers and body
maps, the current request line, and the current section. -/
structure ParseState where
  headers : List (Str × Str)
  body : List (Str × Str)
  request_line : HttpRequestLine
  sect : HttpRequestSection
deriving DecidableEq, Repr

/-- Initial state of the `from_tcp_stream` loop
(src/request/mod.rs lines 269-279). -/
def initParseState : ParseState :=
  { headers := []
  , body := []
  , request_line :=
      { method := HttpRequestMethod.invalid
      , protocol := HttpRequestProtocol.invalid
      , request_uri := []
      , request_uri_base := []
      , query_arguments := []
      , query_string := [] }
  , sect := HttpRequestSection.requestLine }

/-- The `for line in request.lines()` loop of `from_tcp_stream`
(src/request/mod.rs lines 280-309). A failing `get_request_line` or
`get_header_field` propagates through the question-mark operator and
aborts with no result; an empty line in the message-body section breaks
out of the loop. -/
def processLines : List Str → ParseState → Option ParseState
  | [], st => some st
  | line :: rest, st =>
    match st.sect with
    | .requestLine =>
      match get_request_line line with
      | none => none
      | some rl =>
        processLines rest { st with request_line := rl, sect := .headerFields }
    | .headerFields =>
      if (trim line).isEmpty then
        processLines rest { st with sect := .messageBody }
      else
        match get_header_field line with
        | none => none
        | some kv =>
          processLines rest { st with headers := insertArg kv.1 kv.2 st.headers }
    | .messageBody =>
      if line.isEmpty then some st
      else if method_has_request_body st.request_line.method ≠ HttpSettingValence.no then
        match get_message_body line with
        | some body_args => processLines rest { st with body := body_args }
        | none => processLines rest st
      else processLines rest st

/-- Whole-message parsing (src/request/mod.rs
`HttpRequestMessage::from_tcp_stream`). `str::from_utf8` followed by
`is_ascii` accepts exactly the byte lists whose bytes are all below 128
(ASCII bytes are valid UTF-8 and decode to themselves); any other input
falls through to no message. After the line loop, a message is returned
only when the accumulated request line has a recognized method and
protocol. -/
def from_tcp_stream (request : List Nat) : Option HttpRequestMessage :=
  if request.all (fun b => b < 128) then
    match processLines (linesOf (request.map (fun b => Char.ofNat b))) initParseState with
    | none => none
    | some st =>
      if st.request_line.method ≠ HttpRequestMethod.invalid ∧
         st.request_line.protocol ≠ HttpRequestProtocol.invalid then
        some { body := st.body, headers := st.headers, request_line := st.request_line }
      else none
  else none

/-- A worker of the pool (src/lib.rs `Worker`): an identity and an
optional join handle, modelled as `Option Unit`; `Worker::new` always
stores a handle. -/
structure Worker where
  id : Nat
  thread : Option Unit
deriving DecidableEq, Repr

/-- The thread pool (src/lib.rs `ThreadPool`); the channel sender is
implicit in the teardown trace below. -/
structure ThreadPool where
  workers : List Worker
deriving DecidableEq, Repr

/-- Observable actions of `Drop for ThreadPool`: sending a `Terminate`
message down the channel, and joining a worker's thread. -/
inductive PoolEvent where
  | sendTerminate
  | join (id : Nat)
deriving DecidableEq, Repr

/-- Pool construction (src/lib.rs `ThreadPool::new`): spawn one worker per
identity `0..size`, each holding its join handle. The Rust code asserts
`size > 0` before this loop; the loop itself is total. -/
def ThreadPool.new (size : Nat) : ThreadPool :=
  { workers := (List.range size).map (fun id => { id := id, thread := some () }) }

/-- Teardown trace of `impl Drop for ThreadPool` (src/lib.rs lines 92-113),
in program order: first one `Terminate` send per element of `workers`,
then for each worker in order a join of its taken thread handle. -/
def dropEvents (p : ThreadPool) : List PoolEvent :=
  (p.workers.map (fun _ => PoolEvent.sendTerminate)) ++
    (p.workers.filterMap (fun w => w.thread.map (fun _ => PoolEvent.join w.id)))

/-- Result of one `stream.read(&mut temp_buffer)` call in
`Dispatcher::http` (src/response/tcp/mod.rs): on success the 512-element
temporary buffer contents and the number of bytes read; or an error. -/
inductive ReadResult where
  | ok (temp : List Nat) (read_size : Nat)
  | err (e : Str)
deriving DecidableEq, Repr

/-- Observable actions of `Dispatcher::http`: feedback-sink calls and a
write of response bytes to the connection. -/
inductive TcpEvent where
  | feedbackError (msg : Str)
  | feedbackInfo (msg : Str)
  | write (response : List Nat)
deriving DecidableEq, Repr

/-- Accumulation state of the read loop of `Dispatcher::http`
(src/response/tcp/mod.rs lines 25-29). -/
structure AccState where
  buffer : List Nat
  acc_read_size : Nat
  overflow_bytes : Nat
deriving DecidableEq, Repr

/-- Per-byte step of the read loop (src/response/tcp/mod.rs lines 35-44):
count the byte; a non-zero byte is appended while the buffer is below
the limit and otherwise counted as overflow; zero bytes are skipped. -/
def accByte (tcp_limit : Nat) (st : AccState) (value : Nat) : AccState :=
  let st := { st with acc_read_size := st.acc_read_size + 1 }
  if value ≠ 0 then
    if st.buffer.length < tcp_limit then { st with buffer := st.buffer ++ [value] }
    else { st with overflow_bytes := st.overflow_bytes + 1 }
  else st

/-- The read loop of `Dispatcher::http` (src/response/tcp/mod.rs lines
31-58) over a given sequence of read results: a successful read folds
all 512 temporary-buffer bytes through `accByte` and breaks when fewer
than 512 bytes were read; a failing read reports the error to the
feedback sink and breaks. Returns the final accumulation state and the
feedback events emitted inside the loop. -/
def readLoop (tcp_limit : Nat) : AccState → List ReadResult → AccState × List TcpEvent
  | st, [] => (st, [])
  | st, ReadResult.ok temp read_size :: rest =>
    let st := temp.foldl (accByte tcp_limit) st
    if read_size < 512 then (st, [])
    else readLoop tcp_limit st rest
  | st, ReadResult.err e :: _ =>
    (st, [TcpEvent.feedbackError (chars ("Failed to read from TCP stream, error: ") ++ e)])

/-- Modelled from the spec: the HTTP dispatcher consulted after the read
loop lives in src/response/tcp/http (not part of the given sources);
per the spec it exposes a match test and a respond operation over the
accumulated raw bytes that either yields a non-empty response with a
log line or an error. It is passed in as the pair of functions
`matches` and `respond` below. -/
abbrev HttpRespond := List Nat → Nat → Except Str (List Nat × Str)

/-- Post-loop phase of `Dispatcher::http` (src/response/tcp/mod.rs lines
60-123): on a non-empty buffer consult the HTTP dispatcher; a matching
request is responded to, and a non-empty response is written to the
stream (a write or flush failure would only add a feedback event); an
empty response or empty buffer only produces feedback. -/
def dispatchAfterLoop (st : AccState)
  (matchFn : List Nat → Nat → Bool) (respond : HttpRespond) : List TcpEvent :=
  if st.buffer.length > 0 then
    let step :
        (List Nat × Str × List TcpEvent) :=
      if matchFn st.buffer st.overflow_bytes then
        match respond st.buffer st.overflow_bytes with
        | Except.ok rl =>
          (rl.1, rl.2,
            [TcpEvent.feedbackInfo (chars ("Request was successfully decoded as HTTP")),
             TcpEvent.feedbackInfo (chars ("Found non-empty HTTP response to TCP stream"))])
        | Except.error e =>
          ([], [],
            [TcpEvent.feedbackInfo (chars ("Request was successfully decoded as HTTP")),
             TcpEvent.feedbackError (chars ("Got empty HTTP response! Error: ") ++ e)])
      else ([], [], [TcpEvent.feedbackInfo (chars ("Request could not be decoded as HTTP"))])
    if step.1 ≠ [] then
      step.2.2 ++ [TcpEvent.feedbackInfo step.2.1, TcpEvent.write step.1]
    else
      step.2.2 ++ [TcpEvent.feedbackError (chars ("Found no response for TCP stream"))]
  else
    [TcpEvent.feedbackInfo (chars ("TCP stream was empty"))]

/-- Whole `Dispatcher::http` (src/response/tcp/mod.rs), as the list of
observable events: the read loop's feedback followed by the post-loop
dispatch over the accumulated buffer. -/
def dispatcherHttp (tcp_limit : Nat) (reads : List ReadResult)
  (matchFn : List Nat → Nat → Bool) (respond : HttpRespond) : List TcpEvent :=
  let r := readLoop tcp_limit { buffer := [], acc_read_size := 0, overflow_bytes := 0 } reads
  r.2 ++ dispatchAfterLoop r.1 matchFn respond

/-- Expected base path of a URI per the spec: the left side of splitting
the URI once on the first question mark; the whole URI when there is
none. -/
def uriBase (u : Str) : Str :=
  match splitOnFirstChar '?' u with
  | [b, _] => b
  | _ => u

/-- Expected query string of a URI per the spec: the right side of
splitting the URI once on the first question mark; empty when there is
none. -/
def uriQuery (u : Str) : Str :=
  match splitOnFirstChar '?' u with
  | [_, q] => q
  | _ => []

/-- Expected query arguments of a URI per the spec: the ampersand/equals
decomposition of the query string; empty when the URI has no question
mark. -/
def uriArgs (u : Str) : List (Str × Str) :=
  match splitOnFirstChar '?' u with
  | [_, q] => parsePairs q
  | _ => []

/-- The URI decomposition block of `get_request_line` computes exactly the
spec's base/query-string/argument decomposition around the first
question mark. -/
theorem parseUri_eq (u : Str) : parseUri u = (uriBase u, uriQuery u, uriArgs u) := by
  unfold parseUri uriBase uriQuery uriArgs
  rcases h : splitOnFirstChar '?' u with _ | ⟨a, _ | ⟨b, _ | ⟨c, t⟩⟩⟩ <;> rfl

/-- Splitting once on a character that does not occur leaves the string in
one piece. -/
theorem splitOnFirstChar_of_not_mem (sep : Char) (s : Str) (h : sep ∉ s) :
    splitOnFirstChar sep s = [s] := by
  induction s with
  | nil => rfl
  | cons a t ih =>
    have ha : ¬ a = sep := by
      intro he
      exact h (by rw [← he]; exact List.mem_cons_self a t)
    have ht : sep ∉ t := fun hm => h (List.mem_cons_of_mem a hm)
    simp [splitOnFirstChar, ha, ih ht]

/-- A non-blank line without a colon yields no header entry. -/
theorem get_header_field_no_colon (line : Str)
    (hnb : (trim line).isEmpty = false) (hnc : ':' ∉ trim line) :
    get_header_field line = none := by
  unfold get_header_field
  simp [hnb, splitOnFirstChar_of_not_mem ':' (trim line) hnc]

/-- C1 counterexample: a request whose header section contains the
non-blank colon-less line `Just various text here` (with an otherwise
well-formed request line, a further well-formed header and a terminating
blank line) is rejected outright: `from_tcp_stream` returns no message,
contrary to the claim that such a line only contributes no entry. -/
theorem c1_counterexample :
    from_tcp_stream
      (octets ("GET / HTTP/1.1\r\nJust various text here\r\nHost: localhost\r\n\r\n")) =
      none := by decide

/-- C1 amended: during header-field parsing, a non-blank line without a
colon aborts parsing of the whole message: the line loop of
`from_tcp_stream` returns no result from any header-fields state whose
next line is non-blank and colon-less (the failing `get_header_field`
propagates through the question-mark operator). -/
theorem c1_header_no_colon_aborts (line : Str) (rest : List Str) (st : ParseState)
    (hs : st.sect = HttpRequestSection.headerFields)
    (hnb : (trim line).isEmpty = false)
    (hnc : ':' ∉ trim line) :
    processLines (line :: rest) st = none := by
  unfold processLines
  rw [hs]
  simp [hnb, get_header_field_no_colon line hnb hnc]

/-- C1 amended, witness: the colon-less header line aborts a concrete
parse. -/
theorem c1_header_no_colon_aborts_witness :
    processLines [chars ("Just various text here")]
      { headers := []
      , body := []
      , request_line :=
          { method := HttpRequestMethod.get
          , protocol := HttpRequestProtocol.oneDotOne
          , request_uri := chars ("/")
          , request_uri_base := chars ("/")
          , query_arguments := []
          , query_string := [] }
      , sect := HttpRequestSection.headerFields } = none :=
  c1_header_no_colon_aborts (chars ("Just various text here")) [] _ rfl (by decide) (by decide)

/-- C3: a message returned by `from_tcp_stream` never has an invalid
method or an invalid protocol; an accumulated result with an invalid
field is discarded by the final guard and no message is returned. -/
theorem c3_no_invalid_in_parsed_message (req : List Nat) (msg : HttpRequestMessage)
    (h : from_tcp_stream req = some msg) :
    msg.request_line.method ≠ HttpRequestMethod.invalid ∧
    msg.request_line.protocol ≠ HttpRequestProtocol.invalid := by
  unfold from_tcp_stream at h
  split at h
  · split at h
    · exact absurd h (by simp)
    · split at h
      · rename_i hcond
        cases h
        exact hcond
      · exact absurd h (by simp)
  · exact absurd h (by simp)

/-- C3 witness: the theorem applied to the concrete request
`GET / HTTP/1.1` and its parsed message. -/
theorem c3_no_invalid_in_parsed_message_witness :
    ({ body := []
     , headers := []
     , request_line :=
         { method := HttpRequestMethod.get
         , protocol := HttpRequestProtocol.oneDotOne
         , request_uri := chars ("/")
         , request_uri_base := chars ("/")
         , query_arguments := []
         , query_string := [] } } : HttpRequestMessage).request_line.method ≠
        HttpRequestMethod.invalid ∧
    ({ body := []
     , headers := []
     , request_line :=
         { method := HttpRequestMethod.get
         , protocol := HttpRequestProtocol.oneDotOne
         , request_uri := chars ("/")
         , request_uri_base := chars ("/")
         , query_arguments := []
         , query_string := [] } } : HttpRequestMessage).request_line.protocol ≠
        HttpRequestProtocol.invalid :=
  c3_no_invalid_in_parsed_message (octets ("GET / HTTP/1.1\r\n")) _ (by decide)

/-- C7: the ampersand/equals pair parser maps `a=1&b=2&c` to exactly the
three entries a=1, b=2, c=1 (a key without an equals sign gets the
literal value one), and maps the empty string to no result. -/
theorem c7_pair_parsing :
    get_message_body (chars ("a=1&b=2&c")) =
      some [(chars ("a"), chars ("1")), (chars ("b"), chars ("2")), (chars ("c"), chars ("1"))] ∧
    get_message_body (chars ("")) = none := by decide

/-- C10: the byte sequence of a single blank line parses successfully via
the one-token pre-1.0 fallback: method GET, protocol HTTP/0.9, empty
request URI. -/
theorem c10_blank_line_parses_as_get :
    from_tcp_stream (octets ("\r\n")) =
      some { body := []
           , headers := []
           , request_line :=
               { method := HttpRequestMethod.get
               , protocol := HttpRequestProtocol.zeroDotNine
               , request_uri := []
               , request_uri_base := []
               , query_arguments := []
               , query_string := [] } } := by decide

/-- C4: the teardown trace of a pool constructed with K workers consists
of exactly K Terminate sends followed by a join of every one of the K
worker threads (identities 0..K-1, in order): all sends precede any
join, exactly K Terminate messages are sent, and every worker is
joined. -/
theorem c4_drop_terminates_then_joins (K : Nat) :
    dropEvents (ThreadPool.new K) =
      List.replicate K PoolEvent.sendTerminate ++ (List.range K).map PoolEvent.join ∧
    (dropEvents (ThreadPool.new K)).count PoolEvent.sendTerminate = K := by
  have htrace : dropEvents (ThreadPool.new K) =
      List.replicate K PoolEvent.sendTerminate ++ (List.range K).map PoolEvent.join := by
    unfold dropEvents ThreadPool.new
    simp [List.map_map, List.filterMap_map, Function.comp_def, List.map_const',
      List.length_range, List.filterMap_eq_map]
    rw [show (fun x : Nat => some (PoolEvent.join x)) = some ∘ PoolEvent.join from rfl,
      List.filterMap_eq_map]
  refine ⟨htrace, ?_⟩
  rw [htrace, List.count_append, List.count_replicate_self]
  have hz : ((List.range K).map PoolEvent.join).count PoolEvent.sendTerminate = 0 := by
    rw [List.count_eq_zero]
    intro hmem
    rcases List.mem_map.mp hmem with ⟨i, _, hi⟩
    exact PoolEvent.noConfusion hi
  rw [hz]
  omega

/-- C5: a request line with exactly three space-separated tokens whose
first token is a recognized method and whose third token is a
recognized protocol parses successfully; the method and protocol are
the looked-up variants, the request URI is the second token, the base
and query string are the parts of the second token split once on the
first question mark (base = whole token, query string empty when there
is none), and the query arguments are the ampersand/equals
decomposition of the query string. -/
theorem c5_three_token_request_line (line p0 p1 p2 : Str)
    (hp : splitOnChar ' ' (trim line) = [p0, p1, p2])
    (hm : lookupMethod p0 ≠ HttpRequestMethod.invalid)
    (hq : lookupProtocol p2 ≠ HttpRequestProtocol.invalid) :
    get_request_line line =
      some { method := lookupMethod p0
           , protocol := lookupProtocol p2
           , request_uri := p1
           , request_uri_base := uriBase p1
           , query_arguments := uriArgs p1
           , query_string := uriQuery p1 } := by
  unfold get_request_line
  rw [hp]
  simp [parseUri_eq, hm, hq]

/-- C5 witness: the theorem applied to the concrete request line
`GET /a?x=1&y HTTP/1.1`. -/
theorem c5_three_token_request_line_witness :
    get_request_line (chars ("GET /a?x=1&y HTTP/1.1")) =
      some { method := lookupMethod (chars ("GET"))
           , protocol := lookupProtocol (chars ("HTTP/1.1"))
           , request_uri := chars ("/a?x=1&y")
           , request_uri_base := uriBase (chars ("/a?x=1&y"))
           , query_arguments := uriArgs (chars ("/a?x=1&y"))
           , query_string := uriQuery (chars ("/a?x=1&y")) } :=
  c5_three_token_request_line (chars ("GET /a?x=1&y HTTP/1.1"))
    (chars ("GET")) (chars ("/a?x=1&y")) (chars ("HTTP/1.1"))
    (by decide) (by decide) (by decide)

/-- C6: `get_request_line` succeeds for exactly two shapes — one token
yields the pre-1.0 fallback (method GET, protocol HTTP/0.9, URI equal
to the token), while any other token count, or three tokens with an
unrecognized method or protocol string, yields no request. -/
theorem c6_request_line_shapes (line : Str) :
    (∀ t, splitOnChar ' ' (trim line) = [t] →
      get_request_line line =
        some { method := HttpRequestMethod.get
             , protocol := HttpRequestProtocol.zeroDotNine
             , request_uri := t
             , request_uri_base := uriBase t
             , query_arguments := uriArgs t
             , query_string := uriQuery t }) ∧
    ((splitOnChar ' ' (trim line)).length ≠ 1 →
      (splitOnChar ' ' (trim line)).length ≠ 3 →
      get_request_line line = none) ∧
    (∀ p0 p1 p2, splitOnChar ' ' (trim line) = [p0, p1, p2] →
      lookupMethod p0 = HttpRequestMethod.invalid ∨
        lookupProtocol p2 = HttpRequestProtocol.invalid →
      get_request_line line = none) := by
  refine ⟨?_, ?_, ?_⟩
  · intro t ht
    unfold get_request_line
    rw [ht]
    simp [parseUri_eq]
  · intro h1 h3
    unfold get_request_line
    rcases hsp : splitOnChar ' ' (trim line) with _ | ⟨a, _ | ⟨b, _ | ⟨c, _ | ⟨d, t⟩⟩⟩⟩ <;>
      rw [hsp] at h1 h3 <;> simp_all
  · intro p0 p1 p2 hp hinv
    unfold get_request_line
    rw [hp]
    rcases hinv with hm | hq
    · simp [hm]
    · simp [hq]

/-- C6 witness: the one-token fallback on `/index.html`, rejection of a
two-token line, and rejection of a three-token line with an
unrecognized method. -/
theorem c6_request_line_shapes_witness :
    get_request_line (chars ("/index.html")) =
      some { method := HttpRequestMethod.get
           , protocol := HttpRequestProtocol.zeroDotNine
           , request_uri := chars ("/index.html")
           , request_uri_base := uriBase (chars ("/index.html"))
           , query_arguments := uriArgs (chars ("/index.html"))
           , query_string := uriQuery (chars ("/index.html")) } ∧
    get_request_line (chars ("GET /")) = none ∧
    get_request_line (chars ("RANDOM /stuff HTTP/1.1")) = none :=
  ⟨(c6_request_line_shapes (chars ("/index.html"))).1 (chars ("/index.html")) (by decide),
   (c6_request_line_shapes (chars ("GET /"))).2.1 (by decide) (by decide),
   (c6_request_line_shapes (chars ("RANDOM /stuff HTTP/1.1"))).2.2
     (chars ("RANDOM")) (chars ("/stuff")) (chars ("HTTP/1.1")) (by decide)
     (Or.inl (by decide))⟩

/-- Invariant of the `from_tcp_stream` line loop: the body map is only
ever assigned in the message-body section when the request method's
body valence is not No, so a final state whose method has valence No
still carries an empty body (the request-line state always carries an
empty body, which covers the one step that changes the method). -/
theorem processLines_no_body_invariant :
    ∀ (ls : List Str) (st st' : ParseState),
      (st.sect = HttpRequestSection.requestLine → st.body = []) →
      (method_has_request_body st.request_line.method = HttpSettingValence.no →
        st.body = []) →
      processLines ls st = some st' →
      method_has_request_body st'.request_line.method = HttpSettingValence.no →
      st'.body = [] := by
  intro ls
  induction ls with
  | nil =>
    intro st st' h1 h2 hp
    cases hp
    exact h2
  | cons line rest ih =>
    intro st st' h1 h2 hp
    rw [processLines] at hp
    rcases hsec : st.sect with _ | _ | _ <;> rw [hsec] at hp
    · rcases hrl : get_request_line line with _ | rl <;> rw [hrl] at hp
      · exact absurd hp (by simp)
      · exact ih _ _ (by simp) (fun _ => by simpa using h1 hsec) hp
    · by_cases hb : (trim line).isEmpty = true
      · rw [if_pos hb] at hp
        exact ih _ _ (by simp) (fun hno => by simpa using h2 hno) hp
      · rw [if_neg hb] at hp
        rcases hhf : get_header_field line with _ | kv <;> rw [hhf] at hp
        · exact absurd hp (by simp)
        · exact ih _ _ (by simp) (fun hno => by simpa using h2 hno) hp
    · by_cases hb : line.isEmpty = true
      · rw [if_pos hb] at hp
        cases hp
        exact h2
      · rw [if_neg hb] at hp
        by_cases hv :
            method_has_request_body st.request_line.method ≠ HttpSettingValence.no
        · rw [if_pos hv] at hp
          rcases hmb : get_message_body line with _ | args <;> rw [hmb] at hp
          · exact ih _ _ (by simp [hsec]) (fun hno => h2 hno) hp
          · refine ih _ _ (by simp [hsec]) ?_ hp
            intro hno
            exact absurd hno hv
        · rw [if_neg hv] at hp
          exact ih _ _ (by simp [hsec]) (fun hno => h2 hno) hp

/-- C8: a parsed message whose method has body valence No carries an
empty body mapping (body lines were ignored entirely), and in the
message-body section a method with valence other than No has each
non-blank line parsed by the ampersand/equals rule into the body
mapping. -/
theorem c8_body_valence :
    (∀ (req : List Nat) (msg : HttpRequestMessage),
      from_tcp_stream req = some msg →
      method_has_request_body msg.request_line.method = HttpSettingValence.no →
      msg.body = []) ∧
    (∀ (line : Str) (rest : List Str) (st : ParseState),
      st.sect = HttpRequestSection.messageBody →
      line.isEmpty = false →
      method_has_request_body st.request_line.method ≠ HttpSettingValence.no →
      ∀ args, get_message_body line = some args →
        processLines (line :: rest) st = processLines rest { st with body := args }) := by
  constructor
  · intro req msg h hno
    unfold from_tcp_stream at h
    split at h
    · split at h
      · exact absurd h (by simp)
      · rename_i st hst
        split at h
        · cases h
          exact processLines_no_body_invariant _ _ _ (fun _ => rfl) (fun _ => rfl) hst hno
        · exact absurd h (by simp)
    · exact absurd h (by simp)
  · intro line rest st hsec hne hval args hargs
    rw [processLines, hsec]
    simp [hne, hval, hargs]

/-- C8 witness: a HEAD request (valence No) whose body line is ignored,
and a concrete message-body step for a GET request (valence Optional)
storing the parsed pairs. -/
theorem c8_body_valence_witness :
    ({ body := []
     , headers := []
     , request_line :=
         { method := HttpRequestMethod.head
         , protocol := HttpRequestProtocol.twoDotZero
         , request_uri := chars ("/")
         , request_uri_base := chars ("/")
         , query_arguments := []
         , query_string := [] } } : HttpRequestMessage).body = [] ∧
    processLines [chars ("a=1")]
      { headers := []
      , body := []
      , request_line :=
          { method := HttpRequestMethod.get
          , protocol := HttpRequestProtocol.twoDotZero
          , request_uri := chars ("/")
          , request_uri_base := chars ("/")
          , query_arguments := []
          , query_string := [] }
      , sect := HttpRequestSection.messageBody } =
    processLines []
      { headers := []
      , body := [(chars ("a"), chars ("1"))]
      , request_line :=
          { method := HttpRequestMethod.get
          , protocol := HttpRequestProtocol.twoDotZero
          , request_uri := chars ("/")
          , request_uri_base := chars ("/")
          , query_arguments := []
          , query_string := [] }
      , sect := HttpRequestSection.messageBody } :=
  ⟨c8_body_valence.1 (octets ("HEAD / HTTP/2.0\r\n\r\nabc=123")) _ (by decide) (by decide),
   c8_body_valence.2 (chars ("a=1")) [] _ rfl (by decide) (by decide)
     [(chars ("a"), chars ("1"))] (by decide)⟩

/-- Invariant of the per-read byte fold: starting from a buffer within
the limit holding only non-zero bytes, the folded state stays within
the limit, still holds only non-zero bytes, and the growth of buffer
plus overflow tally equals the number of non-zero bytes processed
(every non-zero byte is either stored or tallied, never both). -/
theorem foldl_accByte_invariant (tcp_limit : Nat) :
    ∀ (tempbytes : List Nat) (st : AccState),
      st.buffer.length ≤ tcp_limit →
      (∀ b ∈ st.buffer, b ≠ 0) →
      (tempbytes.foldl (accByte tcp_limit) st).buffer.length ≤ tcp_limit ∧
      (∀ b ∈ (tempbytes.foldl (accByte tcp_limit) st).buffer, b ≠ 0) ∧
      (tempbytes.foldl (accByte tcp_limit) st).buffer.length +
          (tempbytes.foldl (accByte tcp_limit) st).overflow_bytes =
        st.buffer.length + st.overflow_bytes +
          tempbytes.countP (fun b => b ≠ 0) := by
  intro tempbytes
  induction tempbytes with
  | nil =>
    intro st hlen hnz
    exact ⟨hlen, hnz, by simp⟩
  | cons v t ih =>
    intro st hlen hnz
    rw [List.foldl_cons]
    by_cases hv : v = 0
    · have hstep : accByte tcp_limit st v =
          { st with acc_read_size := st.acc_read_size + 1 } := by
        simp [accByte, hv]
      rw [hstep]
      rcases ih { st with acc_read_size := st.acc_read_size + 1 } hlen hnz with ⟨a, b, c⟩
      refine ⟨a, b, ?_⟩
      rw [c]
      simp [List.countP_cons, hv]
    · by_cases hfull : st.buffer.length < tcp_limit
      · have hstep : accByte tcp_limit st v =
            { st with acc_read_size := st.acc_read_size + 1
                    , buffer := st.buffer ++ [v] } := by
          simp [accByte, hv, hfull]
        rw [hstep]
        have hlen' : (st.buffer ++ [v]).length ≤ tcp_limit := by
          simpa using hfull
        have hnz' : ∀ b ∈ st.buffer ++ [v], b ≠ 0 := by
          intro b hb
          rcases List.mem_append.mp hb with hb | hb
          · exact hnz b hb
          · rw [List.mem_singleton.mp hb]; exact hv
        rcases ih { st with acc_read_size := st.acc_read_size + 1
                          , buffer := st.buffer ++ [v] } hlen' hnz' with ⟨a, b, c⟩
        refine ⟨a, b, ?_⟩
        rw [c]
        simp [List.countP_cons, hv]
        omega
      · have hstep : accByte tcp_limit st v =
            { st with acc_read_size := st.acc_read_size + 1
                    , overflow_bytes := st.overflow_bytes + 1 } := by
          simp [accByte, hv, hfull]
        rw [hstep]
        rcases ih { st with acc_read_size := st.acc_read_size + 1
                          , overflow_bytes := st.overflow_bytes + 1 } hlen hnz with ⟨a, b, c⟩
        refine ⟨a, b, ?_⟩
        rw [c]
        simp [List.countP_cons, hv]
        omega

/-- Invariant of the whole read loop: from a state within the limit
holding only non-zero bytes, the loop's final state is within the
limit and holds only non-zero bytes, for every sequence of reads. -/
theorem readLoop_invariant (tcp_limit : Nat) :
    ∀ (reads : List ReadResult) (st : AccState),
      st.buffer.length ≤ tcp_limit →
      (∀ b ∈ st.buffer, b ≠ 0) →
      (readLoop tcp_limit st reads).1.buffer.length ≤ tcp_limit ∧
      ∀ b ∈ (readLoop tcp_limit st reads).1.buffer, b ≠ 0 := by
  intro reads
  induction reads with
  | nil =>
    intro st hlen hnz
    exact ⟨hlen, hnz⟩
  | cons r rest ih =>
    intro st hlen hnz
    rcases r with ⟨temp, read_size⟩ | e
    · rw [readLoop]
      rcases foldl_accByte_invariant tcp_limit temp st hlen hnz with ⟨a, b, _⟩
      by_cases hrs : read_size < 512
      · rw [if_pos hrs]
        exact ⟨a, b⟩
      · rw [if_neg hrs]
        exact ih _ a b
    · exact ⟨hlen, hnz⟩

/-- C9: throughout the connection reader's accumulation loop the buffer
length never exceeds the configured limit and every stored byte is
non-zero; per read, buffer growth plus overflow growth accounts exactly
for the non-zero bytes processed, and a non-zero byte arriving while
the buffer is at the limit is not stored and increments the overflow
tally by one. -/
theorem c9_accumulation_invariants (tcp_limit : Nat) (st : AccState)
    (hlen : st.buffer.length ≤ tcp_limit)
    (hnz : ∀ b ∈ st.buffer, b ≠ 0) :
    (∀ tempbytes : List Nat,
      (tempbytes.foldl (accByte tcp_limit) st).buffer.length ≤ tcp_limit ∧
      (∀ b ∈ (tempbytes.foldl (accByte tcp_limit) st).buffer, b ≠ 0) ∧
      (tempbytes.foldl (accByte tcp_limit) st).buffer.length +
          (tempbytes.foldl (accByte tcp_limit) st).overflow_bytes =
        st.buffer.length + st.overflow_bytes +
          tempbytes.countP (fun b => b ≠ 0)) ∧
    (∀ reads : List ReadResult,
      (readLoop tcp_limit st reads).1.buffer.length ≤ tcp_limit ∧
      ∀ b ∈ (readLoop tcp_limit st reads).1.buffer, b ≠ 0) ∧
    (∀ v : Nat, v ≠ 0 → st.buffer.length = tcp_limit →
      accByte tcp_limit st v =
        { st with acc_read_size := st.acc_read_size + 1
                , overflow_bytes := st.overflow_bytes + 1 }) := by
  refine ⟨fun tempbytes => foldl_accByte_invariant tcp_limit tempbytes st hlen hnz,
          fun reads => readLoop_invariant tcp_limit reads st hlen hnz,
          fun v hv hfull => ?_⟩
  simp [accByte, hv, hfull]

/-- C9 witness: the invariants applied with limit 2 to the byte list
1,0,2,3 from an empty state (buffer fills to two bytes, one overflow),
and the at-limit step applied to a full two-byte buffer. -/
theorem c9_accumulation_invariants_witness :
    ((([1, 0, 2, 3] : List Nat).foldl (accByte 2)
        { buffer := [], acc_read_size := 0, overflow_bytes := 0 }).buffer.length ≤ 2 ∧
      (∀ b ∈ (([1, 0, 2, 3] : List Nat).foldl (accByte 2)
        { buffer := [], acc_read_size := 0, overflow_bytes := 0 }).buffer, b ≠ 0) ∧
      (([1, 0, 2, 3] : List Nat).foldl (accByte 2)
          { buffer := [], acc_read_size := 0, overflow_bytes := 0 }).buffer.length +
          (([1, 0, 2, 3] : List Nat).foldl (accByte 2)
            { buffer := [], acc_read_size := 0, overflow_bytes := 0 }).overflow_bytes =
        ({ buffer := [], acc_read_size := 0, overflow_bytes := 0 } : AccState).buffer.length +
          ({ buffer := [], acc_read_size := 0, overflow_bytes := 0 } : AccState).overflow_bytes +
          ([1, 0, 2, 3] : List Nat).countP (fun b => b ≠ 0)) ∧
    accByte 2 { buffer := [7, 8], acc_read_size := 9, overflow_bytes := 4 } 5 =
      { buffer := [7, 8], acc_read_size := 10, overflow_bytes := 5 } :=
  ⟨(c9_accumulation_invariants 2
      { buffer := [], acc_read_size := 0, overflow_bytes := 0 }
      (by decide) (by decide)).1 [1, 0, 2, 3],
   (c9_accumulation_invariants 2
      { buffer := [7, 8], acc_read_size := 9, overflow_bytes := 4 }
      (by decide) (by decide)).2.2 5 (by decide) (by decide)⟩

/-- Folding a run of identical non-zero bytes into a full buffer stores
nothing and tallies every byte as overflow. -/
theorem foldl_accByte_replicate_full (tcp_limit v : Nat) (hv : v ≠ 0) :
    ∀ (n : Nat) (st : AccState), ¬ st.buffer.length < tcp_limit →
      List.foldl (accByte tcp_limit) st (List.replicate n v) =
        { st with acc_read_size := st.acc_read_size + n
                , overflow_bytes := st.overflow_bytes + n } := by
  intro n
  induction n with
  | zero => intro st h; simp
  | succ m ih =>
    intro st h
    rw [List.replicate_succ, List.foldl_cons]
    have hstep : accByte tcp_limit st v =
        { st with acc_read_size := st.acc_read_size + 1
                , overflow_bytes := st.overflow_bytes + 1 } := by
      simp [accByte, hv, h]
    rw [hstep, ih { st with acc_read_size := st.acc_read_size + 1
                          , overflow_bytes := st.overflow_bytes + 1 } (by simpa using h)]
    congr 1 <;> simp <;> omega

/-- C2 counterexample: on a connection whose first read succeeds with 512
non-zero bytes and whose second read returns an I/O error, the error is
reported to the feedback sink, yet the buffer accumulated before the
error is still dispatched and — with a responder that matches and
produces a non-empty response, as the default filesystem responder
does — response bytes are written to that connection, contrary to the
claim that no response bytes are written. -/
theorem c2_counterexample :
    TcpEvent.feedbackError
        (chars ("Failed to read from TCP stream, error: ") ++ chars ("broken pipe")) ∈
      dispatcherHttp 8
        [ReadResult.ok (List.replicate 512 71) 512, ReadResult.err (chars ("broken pipe"))]
        (fun _ _ => true) (fun _ _ => Except.ok ([72, 73], chars ("OK"))) ∧
    TcpEvent.write [72, 73] ∈
      dispatcherHttp 8
        [ReadResult.ok (List.replicate 512 71) 512, ReadResult.err (chars ("broken pipe"))]
        (fun _ _ => true) (fun _ _ => Except.ok ([72, 73], chars ("OK"))) := by
  have h8 : List.foldl (accByte 8)
      { buffer := [], acc_read_size := 0, overflow_bytes := 0 } (List.replicate 8 71) =
      { buffer := List.replicate 8 71, acc_read_size := 8, overflow_bytes := 0 } := by
    decide
  have he : List.replicate 512 (71 : Nat) = List.replicate 8 71 ++ List.replicate 504 71 := by
    rw [← List.replicate_add]
  have h512 : List.foldl (accByte 8)
      { buffer := [], acc_read_size := 0, overflow_bytes := 0 } (List.replicate 512 71) =
      { buffer := List.replicate 8 71, acc_read_size := 512, overflow_bytes := 504 } := by
    rw [he, List.foldl_append, h8,
      foldl_accByte_replicate_full 8 71 (by decide) 504
        { buffer := List.replicate 8 71, acc_read_size := 8, overflow_bytes := 0 }
        (by decide)]
  have hloop : readLoop 8 { buffer := [], acc_read_size := 0, overflow_bytes := 0 }
      [ReadResult.ok (List.replicate 512 71) 512, ReadResult.err (chars ("broken pipe"))] =
      ({ buffer := List.replicate 8 71, acc_read_size := 512, overflow_bytes := 504 },
       [TcpEvent.feedbackError
         (chars ("Failed to read from TCP stream, error: ") ++ chars ("broken pipe"))]) := by
    rw [readLoop, h512]
    norm_num
    rw [readLoop]
  unfold dispatcherHttp
  rw [hloop]
  decide

/-- C2 amended: a socket read error is reported to the feedback sink's
error operation and aborts the read loop (no further reads happen);
when the error occurs on the very first read the buffer is empty and no
response bytes are written — but the bytes accumulated by earlier
successful reads are still dispatched, so a response may still be
written for the connection. -/
theorem c2_read_error_aborts_loop :
    (∀ (tcp_limit : Nat) (st : AccState) (rest : List ReadResult) (e : Str),
      readLoop tcp_limit st (ReadResult.err e :: rest) =
        (st, [TcpEvent.feedbackError
          (chars ("Failed to read from TCP stream, error: ") ++ e)])) ∧
    (∀ (tcp_limit : Nat) (rest : List ReadResult) (e : Str)
        (matchFn : List Nat → Nat → Bool) (respond : HttpRespond),
      dispatcherHttp tcp_limit (ReadResult.err e :: rest) matchFn respond =
        [TcpEvent.feedbackError (chars ("Failed to read from TCP stream, error: ") ++ e),
         TcpEvent.feedbackInfo (chars ("TCP stream was empty"))]) := by
  constructor
  · intro tcp_limit st rest e
    rfl
  · intro tcp_limit rest e matchFn respond
    rfl

end Milstian
